/-
  Spec2Proof.lean — verification of the image-to-story writing front end.

  The program under study is a React single-page app: a user uploads an image,
  a remote generative model produces an analysis, a six-chapter blueprint and a
  first chapter (`analyzeAndPlan`); the user extends the story chapter by
  chapter (`generateNextPartOfStory` / `writeNextChapter`), optionally steered
  by a side chat (`handleSend` / `chatWithStory`); the finished text can be
  narrated with alternating synthesized voices (`handleReadFullStory`).

  Modelling conventions:
  * strings are `List Char` (`Str`);
  * remote calls are modelled by passing their outcome as an explicit
    parameter: `some result` for a successful round trip, `none` for a
    failure that is caught at the call site;
  * React state updates are modelled as pure functions on a record of the
    component's state fields;
  * the narration loop is modelled as the trace of events it emits, with the
    mutable `isReadingRef` flag modelled as a function from await-point index
    to its value at that moment (the flag can only be observed to change at
    an `await` boundary, since the host language is single threaded).
-/
import Mathlib

namespace WritingHelper

/-- Strings of the TypeScript program, modelled as lists of characters. -/
abbrev Str := List Char

/-! ## Generic string helpers (JavaScript string semantics) -/

/-- Does `s` start with `pat`?  Used to model anchored regex literal matches. -/
def listStartsWith : Str → Str → Bool
  | [], _ => true
  | _ :: _, [] => false
  | p :: ps, c :: cs => p == c && listStartsWith ps cs

/-- Index of the first occurrence of `pat` in `s` (leftmost match of a literal
pattern, as a JavaScript regex engine finds it). -/
def findSub (pat : Str) : Str → Option Nat
  | [] => if listStartsWith pat [] then some 0 else none
  | c :: rest =>
      if listStartsWith pat (c :: rest) then some 0
      else (findSub pat rest).map (fun n => n + 1)

/-- Model of `text.match(/m1([\s\S]*?)m2/)`: the captured group is the text
between the leftmost occurrence of `m1` and the first occurrence of `m2`
after it (the lazy quantifier takes the shortest capture). -/
def matchBetween (m1 m2 t : Str) : Option Str :=
  match findSub m1 t with
  | none => none
  | some p =>
      (findSub m2 (t.drop (p + m1.length))).map
        (fun q => (t.drop (p + m1.length)).take q)

/-- Model of `text.match(/m([\s\S]*)/)`: the captured group is everything after
the leftmost occurrence of `m`. -/
def matchAfter (m t : Str) : Option Str :=
  (findSub m t).map (fun p => t.drop (p + m.length))

/-- Characters removed by JavaScript `String.prototype.trim` (WhiteSpace and
LineTerminator code points). -/
def isJsWhitespace (c : Char) : Bool :=
  c == ' ' || c == '\t' || c == '\n' || c == '\r' ||
  c.toNat == 0xB || c.toNat == 0xC || c.toNat == 0xA0 || c.toNat == 0x1680 ||
  (decide (0x2000 ≤ c.toNat) && decide (c.toNat ≤ 0x200A)) ||
  c.toNat == 0x2028 || c.toNat == 0x2029 ||
  c.toNat == 0x202F || c.toNat == 0x205F || c.toNat == 0x3000 ||
  c.toNat == 0xFEFF

/-- Model of JavaScript `s.trim()`. -/
def jsTrim (s : Str) : Str :=
  ((s.dropWhile isJsWhitespace).reverse.dropWhile isJsWhitespace).reverse

/-- Model of JavaScript `s.slice(-n)` for `n > 0`: the last `n` characters,
or the whole string when it is shorter than `n`. -/
def jsSliceNeg (n : Nat) (s : Str) : Str := s.drop (s.length - n)

/-- Prepend a character to the first chunk of a split result. -/
def prependChar (c : Char) : List Str → List Str
  | [] => [[c]]
  | h :: t => (c :: h) :: t

/-- Model of JavaScript `s.split(sep)` for a single separator character. -/
def splitOnChar (sep : Char) : Str → List Str
  | [] => [[]]
  | c :: rest =>
      if c == sep then [] :: splitOnChar sep rest
      else prependChar c (splitOnChar sep rest)

/-- Model of `imageBase64.split(',')[1]` (the base64 payload of a data URL);
`none` models the `undefined` a JavaScript index out of range would give. -/
def jsSplitSecond (s : Str) : Option Str := (splitOnChar ',' s).get? 1

/-! ## geminiService: `analyzeAndPlan` response parsing -/

/-- The literal marker `分析：` of the structured model response. -/
def mAnalysis : Str := "分析：".toList

/-- The literal marker `大纲：` of the structured model response. -/
def mBlueprint : Str := "大纲：".toList

/-- The literal marker `故事：` of the structured model response. -/
def mStory : Str := "故事：".toList

/-- Placeholder returned when the analysis marker pattern does not match. -/
def analysisFallback : Str := "分析完成。".toList

/-- Placeholder returned when the blueprint marker pattern does not match. -/
def blueprintFallback : Str := "蓝图已构思。".toList

/-- Result of `analyzeAndPlan`'s parsing of the model response text. -/
structure AnalyzePlanResult where
  analysis : Str
  blueprint : Str
  firstChapter : Str
  deriving DecidableEq, Repr

/-- Model of the response parsing in `analyzeAndPlan` (geminiService):
`text.match(/分析：([\s\S]*?)大纲：/i)`, `text.match(/大纲：([\s\S]*?)故事：/i)`,
`text.match(/故事：([\s\S]*)/i)`, each capture trimmed, with the fixed
fallbacks `"分析完成。"`, `"蓝图已构思。"` and the raw whole text.  The `i` flag
is irrelevant for these CJK literals. -/
def analyzeAndPlan (text : Str) : AnalyzePlanResult :=
  { analysis :=
      match matchBetween mAnalysis mBlueprint text with
      | some s => jsTrim s
      | none => analysisFallback
    blueprint :=
      match matchBetween mBlueprint mStory text with
      | some s => jsTrim s
      | none => blueprintFallback
    firstChapter :=
      match matchAfter mStory text with
      | some s => jsTrim s
      | none => text }

/-! ## geminiService: `writeNextChapter` request construction -/

/-- Template text before the chat-assistant guidance. -/
def promptSeg1 : Str :=
  "\n    你正在创作一部长篇巨著。\n    \n    【核心要求】\n    你必须严格根据“创作助手”给出的以下提示和指导来撰写本章节：\n    \"".toList

/-- Template text between the guidance and the blueprint. -/
def promptSeg2 : Str := "\"\n    \n    【全书大纲】\n    \"".toList

/-- Template text between the blueprint and the story recap. -/
def promptSeg3 : Str := "\"\n    \n    【前文回顾】\n    \"".toList

/-- Template text between the story recap and the chapter number. -/
def promptSeg4 : Str := "\"\n    \n    【任务】\n    请撰写第 ".toList

/-- Template text between the two interpolations of the chapter number. -/
def promptSeg5 : Str :=
  " 章。\n    1. 深度结合上述“创作助手”的提示词，将其转化为具体的故事情节、人物对话或心理描写。\n    2. 字数在 1200 字以上，展现文学大师级的文笔。\n    3. 承接前文，自然过渡，且符合大纲的整体走向。\n    4. 以“第 ".toList

/-- Template text after the second interpolation of the chapter number. -/
def promptSeg6 : Str := " 章：[标题]”作为开头。\n    \n    直接返回章节正文，无需任何解释。\n  ".toList

/-- The continuation prompt built by `writeNextChapter`: the template with the
guidance, the blueprint, `currentStory.slice(-2000)` and the chapter number
interpolated. -/
def writeNextChapterPrompt (currentStory blueprint : Str) (chapterIndex : Nat)
    (chatContext : Str) : Str :=
  promptSeg1 ++ chatContext ++ promptSeg2 ++ blueprint ++ promptSeg3 ++
    jsSliceNeg 2000 currentStory ++ promptSeg4 ++ (toString chapterIndex).toList ++
    promptSeg5 ++ (toString chapterIndex).toList ++ promptSeg6

/-- One part of a generate-content request. -/
inductive ReqPart where
  | text (s : Str)
  | inlineImage (mimeType : String) (data : Option Str)
  deriving DecidableEq, Repr

/-- Model of the request `writeNextChapter` sends: the templated prompt part,
followed by the inline image part when an image is present. -/
def writeNextChapter (currentStory blueprint : Str) (chapterIndex : Nat)
    (imageBase64 : Option Str) (chatContext : Str) : List ReqPart :=
  [ReqPart.text (writeNextChapterPrompt currentStory blueprint chapterIndex chatContext)] ++
    (match imageBase64 with
     | some img => [ReqPart.inlineImage "image/jpeg" (jsSplitSecond img)]
     | none => [])

/-! ## App component state and handlers -/

/-- Fixed message shown when `analyzeAndPlan` fails during an image upload. -/
def errUploadMsg : Str := "创作启动失败，请检查网络。".toList

/-- Fixed message shown when `writeNextChapter` fails during generation. -/
def errGenerateMsg : Str := "创作过程中断，请重试。".toList

/-- Fixed message shown when a call fails during full-story narration. -/
def errNarrateMsg : Str := "朗诵过程中遇到问题。".toList

/-- Fixed fallback assistant message appended when `chatWithStory` fails. -/
def chatFailMsg : Str := "连接助手时遇到了点问题。".toList

/-- Default guidance used by `generateNextPartOfStory` when the chat assistant
has not supplied any. -/
def defaultGuidance : Str := "请根据图片意境和大纲要求，自然推进剧情。".toList

/-- The chapter separator `"\n\n"` inserted by `generateNextPartOfStory`. -/
def nl2 : Str := ['\n', '\n']

/-- State of the `App` component: the `AdvancedStoryState` record together
with the other `useState` hooks and the `isReadingRef`/`stopSignal` refs. -/
structure App where
  image : Option Str
  analysis : Str
  blueprint : Str
  paragraph : Str
  isLoading : Bool
  currentChapter : Nat
  error : Option Str
  currentGuidance : Str
  isAutoGenerating : Bool
  isPlaying : Bool
  playingChapterIndex : Option Nat
  isReading : Bool
  stopSignal : Bool
  editableBlueprint : Str
  isEditingBlueprint : Bool
  deriving DecidableEq, Repr

/-- Model of `stopAudio`: clears the reading flag, stops any playing source,
and resets the playback indicators. -/
def stopAudio (a : App) : App :=
  { a with isReading := false, isPlaying := false, playingChapterIndex := none }

/-- Model of the synchronous state reset at the start of `handleImageUpload`
(after the file is read): the new image is stored, the story state is cleared,
the chapter counter resets to 1, the pending guidance is cleared and audio is
stopped, before `analyzeAndPlan` is awaited. -/
def handleImageUploadStart (a : App) (base64 : Str) : App :=
  stopAudio
    { a with
        image := some base64
        isLoading := true
        error := none
        paragraph := []
        analysis := []
        blueprint := []
        currentChapter := 1
        currentGuidance := [] }

/-- Model of the continuation of `handleImageUpload` once the awaited
`analyzeAndPlan` call settles: `some (analysis, blueprint, firstChapter)` on
success, `none` when the call threw. -/
def handleImageUploadFinish (a : App) (result : Option (Str × Str × Str)) : App :=
  match result with
  | some r =>
      { a with isLoading := false, analysis := r.1, blueprint := r.2.1,
               paragraph := r.2.2 }
  | none => { a with isLoading := false, error := some errUploadMsg }

/-- Model of a whole `handleImageUpload` call with a file present. -/
def handleImageUpload (a : App) (base64 : Str) (result : Option (Str × Str × Str)) : App :=
  handleImageUploadFinish (handleImageUploadStart a base64) result

/-- Model of `generateNextPartOfStory`: no-op when a generation is already in
progress or the blueprint is empty; otherwise the awaited `writeNextChapter`
outcome is `some nextPart` (appended after `"\n\n"`, chapter counter bumped)
or `none` (only the error slot is set). -/
def generateNextPartOfStory (a : App) (result : Option Str) : App :=
  if a.isAutoGenerating = true ∨ a.blueprint = [] then a
  else
    match result with
    | some nextPart =>
        { a with
            stopSignal := false
            isAutoGenerating := false
            paragraph := a.paragraph ++ nl2 ++ nextPart
            currentChapter := a.currentChapter + 1 }
    | none =>
        { a with
            stopSignal := false
            isAutoGenerating := false
            error := some errGenerateMsg }

/-- Model of `handleStop`. -/
def handleStop (a : App) : App :=
  { a with stopSignal := true, isAutoGenerating := false }

/-- Model of `handleSaveBlueprint`: commits the edited blueprint text. -/
def handleSaveBlueprint (a : App) : App :=
  { a with blueprint := a.editableBlueprint, isEditingBlueprint := false }

/-- Model of the `onAssistantReply` callback (`setCurrentGuidance`). -/
def setCurrentGuidance (a : App) (g : Str) : App := { a with currentGuidance := g }

/-- Model of the error-toast dismiss button (`setState error: null`). -/
def dismissError (a : App) : App := { a with error := none }

/-- Model of entering blueprint edit mode. -/
def startEditBlueprint (a : App) : App := { a with isEditingBlueprint := true }

/-- Model of typing in the blueprint editor (`setEditableBlueprint`). -/
def setEditableBlueprint (a : App) (s : Str) : App := { a with editableBlueprint := s }

/-- Model of the effect syncing `editableBlueprint` with `state.blueprint`. -/
def syncEditableBlueprint (a : App) : App := { a with editableBlueprint := a.blueprint }

/-- Net state effect of a `handleReadFullStory` call: a toggle-off when already
playing; a no-op on an empty story; otherwise the loop runs and the `finally`
block restores the playback indicators, with the error slot set to the fixed
message exactly when some awaited call in the loop threw (`failed`). -/
def handleReadFullStory (a : App) (failed : Bool) : App :=
  if a.isPlaying = true then stopAudio a
  else if a.paragraph = [] then a
  else
    { a with
        isPlaying := false
        playingChapterIndex := none
        isReading := false
        error := if failed then some errNarrateMsg else a.error }

/-! ## ChatInterface component -/

/-- Role tag of a chat message. -/
inductive Role where
  | user
  | assistant
  deriving DecidableEq, Repr

/-- A chat message (`Message` in types.ts). -/
structure Message where
  role : Role
  content : Str
  deriving DecidableEq, Repr

/-- State of the `ChatInterface` component. -/
structure Chat where
  messages : List Message
  input : Str
  isTyping : Bool
  deriving DecidableEq, Repr

/-- Model of `handleSend`: guarded no-op on whitespace-only input or while a
reply is pending; otherwise the user message is appended, and once the awaited
`chatWithStory` call settles the assistant reply (`some r`) or the fixed
fallback message (`none`) is appended; the input is cleared and `isTyping`
ends `false`. -/
def handleSend (c : Chat) (reply : Option Str) : Chat :=
  if jsTrim c.input = [] ∨ c.isTyping = true then c
  else
    match reply with
    | some r =>
        { messages := c.messages ++ [⟨Role.user, c.input⟩, ⟨Role.assistant, r⟩]
          input := []
          isTyping := false }
    | none =>
        { messages := c.messages ++ [⟨Role.user, c.input⟩, ⟨Role.assistant, chatFailMsg⟩]
          input := []
          isTyping := false }

/-! ## Narration: chapter split and playback loop

The loop in `handleReadFullStory` has four `await` boundaries per iteration,
so the `isReadingRef` flag is sampled on a timeline of await points.  For
iteration `i` (0-based):

* step `4*i`   — top-of-loop check `if (!isReadingRef.current) break;`, then
  the speech-synthesis request for chapter `i` is issued synchronously;
* step `4*i+1` — the synthesis call has returned; second check
  `if (!isReadingRef.current) break;`;
* step `4*i+2` — `decodeAudioData` has returned and `source.start()` runs;
  the source does NOT re-check the flag here;
* step `4*i+3` — playback has ended (the `onended` promise resolved).

`flag n` is the value of `isReadingRef.current` at step `n`. -/

/-- A JavaScript regex `.` (no `s` flag) stops at a line terminator. -/
def isLineTerminator (c : Char) : Bool :=
  c == '\n' || c == '\r' || c.toNat == 0x2028 || c.toNat == 0x2029

/-- Does `/.*章/` match at the start of `s`: is there a `章` before the next
line terminator? -/
def dotStarThenZhang : Str → Bool
  | [] => false
  | c :: rest =>
      if c == '章' then true
      else if isLineTerminator c then false
      else dotStarThenZhang rest

/-- Does the lookahead `(?=第.*章)` match at the start of `s`? -/
def isChapterStart (s : Str) : Bool :=
  match s with
  | '第' :: rest => dotStarThenZhang rest
  | _ => false

/-- One-character-at-a-time scanner for the separator `/\n\n(?=第.*章)/`:
`pending = true` records that the previous character was a `'\n'` that may be
the first character of a separator.  On `'\n'` followed by a chapter heading
the pending and current newlines are consumed as the separator and a new chunk
starts; otherwise the pending newline is committed to the current chunk and
scanning moves on by one character, exactly as the regex engine advances. -/
def splitCh (pending : Bool) : Str → List Str
  | [] => if pending then [['\n']] else [[]]
  | c :: rest =>
      if pending then
        if c == '\n' && isChapterStart rest then [] :: splitCh false rest
        else if c == '\n' then prependChar '\n' (splitCh true rest)
        else prependChar '\n' (prependChar c (splitCh false rest))
      else
        if c == '\n' then splitCh true rest
        else prependChar c (splitCh false rest)

/-- Model of `state.paragraph.split(/\n\n(?=第.*章)/)`: split at every
`"\n\n"` that is immediately followed by a chapter heading, consuming only the
two newlines. -/
def splitChapters (s : Str) : List Str := splitCh false s

/-- Voice chosen for the chapter at 0-based position `i`:
`(i % 2 === 0) ? 'Kore' : 'Puck'`. -/
def voiceFor (i : Nat) : String := if i % 2 = 0 then "Kore" else "Puck"

/-- Observable events of the narration loop: a speech-synthesis request for
chapter `i` (with the text sent and the voice chosen), and the start of
playback of chapter `i`. -/
inductive ReadEvent where
  | synth (i : Nat) (text : Str) (voice : String)
  | play (i : Nat)
  deriving DecidableEq, Repr

/-- Trace of the narration loop over the remaining `chapters`, starting at
loop index `i`, with `flag` giving the value of `isReadingRef.current` at
each await step (see the step numbering above).  Playback of chapter `i`
starts unconditionally once the step-`4*i+1` check has passed, because the
code does not re-check the flag after `decodeAudioData`. -/
def runRead (flag : Nat → Bool) : List Str → Nat → List ReadEvent
  | [], _ => []
  | ch :: rest, i =>
      if flag (4 * i) = false then []
      else
        if flag (4 * i + 1) = false then
          [ReadEvent.synth i (ch.take 1500) (voiceFor i)]
        else
          ReadEvent.synth i (ch.take 1500) (voiceFor i) ::
            ReadEvent.play i :: runRead flag rest (i + 1)

/-- Events emitted by a `handleReadFullStory` call: nothing when it is a
toggle-off or the story is empty, otherwise the loop over the split chapters. -/
def readFullStoryTrace (isPlaying : Bool) (paragraph : Str) (flag : Nat → Bool) :
    List ReadEvent :=
  if isPlaying = true then []
  else if paragraph = [] then []
  else runRead flag (splitChapters paragraph) 0

/-- A flag timeline is sticky when, once cleared, it stays cleared: nothing in
the narration loop ever sets `isReadingRef.current` back to `true`. -/
def isSticky (flag : Nat → Bool) : Prop :=
  ∀ m n, m ≤ n → flag m = false → flag n = false

/-- A flag timeline on which the stop control fires during the decoding of
chapter 0's audio: the flag is still set at steps 0 and 1 (both checks pass)
and cleared from step 2 on (before playback of chapter 0 starts). -/
def flagStopDuringDecode : Nat → Bool := fun n => decide (n ≤ 1)

/-! ## Concrete inputs used to instantiate the theorems -/

/-- A model response shaped `a 分析： b 大纲： c 故事： d`. -/
def markedText (a b c d : Str) : Str :=
  a ++ (mAnalysis ++ (b ++ (mBlueprint ++ (c ++ (mStory ++ d)))))

/-- A model response whose `分析：` marker is missing while the other two
markers are present. -/
def t0Bad : Str := "大纲：B故事：C".toList

/-- A mid-session state: non-empty blueprint and story, nothing in flight. -/
def sampleApp : App :=
  { image := none
    analysis := []
    blueprint := ['b']
    paragraph := ['p']
    isLoading := false
    currentChapter := 1
    error := none
    currentGuidance := []
    isAutoGenerating := false
    isPlaying := false
    playingChapterIndex := none
    isReading := false
    stopSignal := false
    editableBlueprint := []
    isEditingBlueprint := false }

/-- A chat state with a pending non-blank input and no reply in flight. -/
def sampleChat : Chat := { messages := [], input := ['h', 'i'], isTyping := false }

/-- A story with a prologue and one chapter heading. -/
def samplePara : Str := "序\n\n第一章上".toList

/-- A 2001-character story. -/
def longStoryA : Str := 'x' :: List.replicate 2000 'a'

/-- A 2000-character story agreeing with `longStoryA` on the last 2000
characters but not on the whole text. -/
def longStoryB : Str := List.replicate 2000 'a'

/-! ## Helper lemmas about literal substring search -/

theorem listStartsWith_iff (pat s : Str) :
    listStartsWith pat s = true ↔ ∃ t, s = pat ++ t := by
  induction pat generalizing s with
  | nil => simp [listStartsWith]
  | cons p ps ih =>
    cases s with
    | nil => simp [listStartsWith]
    | cons c cs =>
      constructor
      · intro h
        rw [listStartsWith, Bool.and_eq_true, beq_iff_eq] at h
        obtain ⟨hpc, h2⟩ := h
        obtain ⟨t, ht⟩ := (ih cs).mp h2
        exact ⟨t, by simp [hpc, ht]⟩
      · rintro ⟨t, ht⟩
        simp only [List.cons_append] at ht
        injection ht with h1 h2
        rw [listStartsWith, Bool.and_eq_true, beq_iff_eq]
        exact ⟨h1.symm, (ih cs).mpr ⟨t, h2⟩⟩

theorem listStartsWith_append_self (pat t : Str) :
    listStartsWith pat (pat ++ t) = true :=
  (listStartsWith_iff pat (pat ++ t)).mpr ⟨t, rfl⟩

theorem take_len_append (u v : Str) : (u ++ v).take u.length = u := by
  induction u with
  | nil => simp
  | cons c t ih => simp [ih]

theorem drop_len_append (u v : Str) : (u ++ v).drop u.length = v := by
  induction u with
  | nil => simp
  | cons c t ih => simp [ih]

theorem findSub_of_startsWith (pat s : Str) (h : listStartsWith pat s = true) :
    findSub pat s = some 0 := by
  cases s with
  | nil => simp [findSub, h]
  | cons c cs => simp [findSub, h]

theorem findSub_append (pat u v : Str)
    (h : ∀ j, j < u.length → listStartsWith pat ((u ++ v).drop j) = false)
    (hv : listStartsWith pat v = true) :
    findSub pat (u ++ v) = some u.length := by
  induction u with
  | nil => simpa using findSub_of_startsWith pat v hv
  | cons x u' ih =>
    have h0 : listStartsWith pat (x :: (u' ++ v)) = false := by
      simpa using h 0 (by simp)
    have h' : ∀ j, j < u'.length → listStartsWith pat ((u' ++ v).drop j) = false := by
      intro j hj
      have := h (j + 1) (by simp only [List.length_cons]; omega)
      simpa using this
    simp [findSub, h0, ih h']

theorem exists_of_findSub (pat : Str) :
    ∀ (s : Str) (i : Nat), findSub pat s = some i →
      ∃ u v, s = u ++ (pat ++ v) ∧ u.length = i := by
  intro s
  induction s with
  | nil =>
    intro i h
    rw [findSub] at h
    split at h
    · next hp =>
        obtain ⟨t, ht⟩ := (listStartsWith_iff _ _).mp hp
        injection h with h0
        exact ⟨[], t, by simpa using ht, by simpa using h0⟩
    · cases h
  | cons c rest ih =>
    intro i h
    rw [findSub] at h
    split at h
    · next hp =>
        obtain ⟨t, ht⟩ := (listStartsWith_iff _ _).mp hp
        injection h with h0
        exact ⟨[], t, by simpa using ht, by simpa using h0⟩
    · next hp =>
        cases hfr : findSub pat rest with
        | none => rw [hfr] at h; cases h
        | some j =>
          rw [hfr] at h
          simp only [Option.map_some', Option.some.injEq] at h
          obtain ⟨u, v, huv, hlen⟩ := ih j hfr
          refine ⟨c :: u, v, by simp [huv], ?_⟩
          simp only [List.length_cons]
          omega

theorem findSub_isSome_of (pat u v : Str) :
    (findSub pat (u ++ (pat ++ v))).isSome = true := by
  induction u with
  | nil =>
    simp [findSub_of_startsWith pat (pat ++ v) (listStartsWith_append_self pat v)]
  | cons c u' ih =>
    by_cases hp : listStartsWith pat (c :: (u' ++ (pat ++ v))) = true
    · simp [findSub, hp]
    · have hp' : listStartsWith pat (c :: (u' ++ (pat ++ v))) = false := by
        simpa using hp
      cases hfr : findSub pat (u' ++ (pat ++ v)) with
      | none => rw [hfr] at ih; simp at ih
      | some k => simp [findSub, hp', hfr]

theorem no_single_occurrence (m t : Str) (h : findSub m t = none) :
    ¬ ∃ u v, t = u ++ (m ++ v) := by
  rintro ⟨u, v, rfl⟩
  have := findSub_isSome_of m u v
  rw [h] at this
  simp at this

theorem no_pair_occurrence (m1 m2 t : Str) (h : findSub m1 t = none) :
    ¬ ∃ u v w, t = u ++ (m1 ++ (v ++ (m2 ++ w))) := by
  rintro ⟨u, v, w, rfl⟩
  have := findSub_isSome_of m1 u (v ++ (m2 ++ w))
  rw [h] at this
  simp at this

theorem matchBetween_eq (m1 m2 a b z t : Str)
    (ht : t = a ++ (m1 ++ (b ++ (m2 ++ z))))
    (h1 : ∀ j, j < a.length → listStartsWith m1 (t.drop j) = false)
    (h2 : ∀ j, j < b.length → listStartsWith m2 ((b ++ (m2 ++ z)).drop j) = false) :
    matchBetween m1 m2 t = some b := by
  subst ht
  have hf1 : findSub m1 (a ++ (m1 ++ (b ++ (m2 ++ z)))) = some a.length :=
    findSub_append m1 a (m1 ++ (b ++ (m2 ++ z))) h1
      (listStartsWith_append_self m1 (b ++ (m2 ++ z)))
  have hrest : (a ++ (m1 ++ (b ++ (m2 ++ z)))).drop (a.length + m1.length) =
      b ++ (m2 ++ z) := by
    rw [show a ++ (m1 ++ (b ++ (m2 ++ z))) = (a ++ m1) ++ (b ++ (m2 ++ z)) from by
          simp [List.append_assoc],
        ← List.length_append]
    exact drop_len_append _ _
  have hf2 : findSub m2 (b ++ (m2 ++ z)) = some b.length :=
    findSub_append m2 b (m2 ++ z) h2 (listStartsWith_append_self m2 z)
  simp [matchBetween, hf1, hrest, hf2, take_len_append]

theorem matchAfter_eq (m a d t : Str)
    (ht : t = a ++ (m ++ d))
    (h : ∀ j, j < a.length → listStartsWith m (t.drop j) = false) :
    matchAfter m t = some d := by
  subst ht
  have hf : findSub m (a ++ (m ++ d)) = some a.length :=
    findSub_append m a (m ++ d) h (listStartsWith_append_self m d)
  have hrest : (a ++ (m ++ d)).drop (a.length + m.length) = d := by
    rw [show a ++ (m ++ d) = (a ++ m) ++ d from by simp [List.append_assoc],
        ← List.length_append]
    exact drop_len_append _ _
  simp [matchAfter, hf, hrest]

theorem matchBetween_none (m1 m2 t : Str)
    (h : ¬ ∃ u v w, t = u ++ (m1 ++ (v ++ (m2 ++ w)))) :
    matchBetween m1 m2 t = none := by
  cases hf : findSub m1 t with
  | none => simp [matchBetween, hf]
  | some p =>
    obtain ⟨u, v', huv, hlen⟩ := exists_of_findSub m1 t p hf
    have hdrop : t.drop (p + m1.length) = v' := by
      rw [huv, ← hlen,
          show u ++ (m1 ++ v') = (u ++ m1) ++ v' from by simp [List.append_assoc],
          ← List.length_append]
      exact drop_len_append _ _
    cases hg : findSub m2 (t.drop (p + m1.length)) with
    | none => simp [matchBetween, hf, hg]
    | some q =>
      rw [hdrop] at hg
      obtain ⟨v1, v2, hv, _⟩ := exists_of_findSub m2 v' q hg
      exact absurd ⟨u, v1, v2, by rw [huv, hv]⟩ h

theorem dropSplit (m n : Nat) : ∀ l : Str, l.drop (m + n) = (l.drop m).drop n := by
  induction m with
  | zero => intro l; simp
  | succ k ih =>
    intro l
    cases l with
    | nil => simp
    | cons c t =>
      rw [show k + 1 + n = (k + n) + 1 from by omega]
      rw [List.drop_succ_cons, List.drop_succ_cons]
      exact ih t

theorem matchAfter_none (m t : Str) (h : ¬ ∃ u v, t = u ++ (m ++ v)) :
    matchAfter m t = none := by
  cases hf : findSub m t with
  | none => simp [matchAfter, hf]
  | some p =>
    obtain ⟨u, v, huv, _⟩ := exists_of_findSub m t p hf
    exact absurd ⟨u, v, huv⟩ h

/-! ## Helper lemmas about the narration loop -/

theorem take_of_len_le (l : Str) (n : Nat) (h : l.length ≤ n) : l.take n = l := by
  induction l generalizing n with
  | nil => simp
  | cons c t ih =>
    cases n with
    | zero => simp at h
    | succ m =>
      simp only [List.length_cons] at h
      simp [ih m (by omega)]

theorem runRead_always_length (chs : List Str) :
    ∀ i0, (runRead (fun _ => true) chs i0).length = 2 * chs.length := by
  induction chs with
  | nil => intro i0; simp [runRead]
  | cons ch rest ih =>
    intro i0
    simp only [runRead]
    simp [ih (i0 + 1)]
    omega

theorem runRead_always_get (chs : List Str) :
    ∀ i0 k, k < chs.length →
      (runRead (fun _ => true) chs i0)[2 * k]? =
        some (ReadEvent.synth (i0 + k) ((chs.getD k []).take 1500) (voiceFor (i0 + k))) ∧
      (runRead (fun _ => true) chs i0)[2 * k + 1]? =
        some (ReadEvent.play (i0 + k)) := by
  induction chs with
  | nil => intro i0 k hk; simp at hk
  | cons ch rest ih =>
    intro i0 k hk
    have hrun : runRead (fun _ => true) (ch :: rest) i0 =
        ReadEvent.synth i0 (ch.take 1500) (voiceFor i0) ::
          ReadEvent.play i0 :: runRead (fun _ => true) rest (i0 + 1) := by
      simp [runRead]
    rw [hrun]
    cases k with
    | zero => simp
    | succ m =>
      have hm : m < rest.length := by
        simp only [List.length_cons] at hk
        omega
      have h2 : 2 * (m + 1) = (2 * m + 1) + 1 := by omega
      rw [h2]
      simp only [List.getElem?_cons_succ]
      have := ih (i0 + 1) m hm
      have harith : i0 + 1 + m = i0 + (m + 1) := by omega
      rw [harith] at this
      simpa [List.getD_cons_succ] using this

theorem synth_mem_runRead (flag : Nat → Bool) (chs : List Str) :
    ∀ i0 i txt v, ReadEvent.synth i txt v ∈ runRead flag chs i0 →
      ∃ k, i = i0 + k ∧ k < chs.length ∧
        txt = (chs.getD k []).take 1500 ∧ v = voiceFor i := by
  induction chs with
  | nil => intro i0 i txt v h; simp [runRead] at h
  | cons ch rest ih =>
    intro i0 i txt v h
    rw [runRead] at h
    by_cases h0 : flag (4 * i0) = false
    · rw [if_pos h0] at h
      simp at h
    · rw [if_neg h0] at h
      by_cases h1 : flag (4 * i0 + 1) = false
      · rw [if_pos h1] at h
        simp only [List.mem_singleton, ReadEvent.synth.injEq] at h
        obtain ⟨hi, htxt, hv⟩ := h
        exact ⟨0, by omega, by simp, by simp [htxt], by rw [hv, hi]⟩
      · rw [if_neg h1] at h
        simp only [List.mem_cons] at h
        rcases h with h | h | h
        · rw [ReadEvent.synth.injEq] at h
          obtain ⟨hi, htxt, hv⟩ := h
          exact ⟨0, by omega, by simp, by simp [htxt], by rw [hv, hi]⟩
        · cases h
        · obtain ⟨k, hik, hk, htxt, hv⟩ := ih (i0 + 1) i txt v h
          refine ⟨k + 1, by omega, ?_, by simp [htxt], hv⟩
          simp only [List.length_cons]
          omega

theorem synth_mem_flag (flag : Nat → Bool) (chs : List Str) :
    ∀ i0 i txt v, ReadEvent.synth i txt v ∈ runRead flag chs i0 →
      flag (4 * i) = true := by
  induction chs with
  | nil => intro i0 i txt v h; simp [runRead] at h
  | cons ch rest ih =>
    intro i0 i txt v h
    rw [runRead] at h
    by_cases h0 : flag (4 * i0) = false
    · rw [if_pos h0] at h
      simp at h
    · have h0' : flag (4 * i0) = true := by
        revert h0; cases flag (4 * i0) <;> simp
      rw [if_neg h0] at h
      by_cases h1 : flag (4 * i0 + 1) = false
      · rw [if_pos h1] at h
        simp only [List.mem_singleton, ReadEvent.synth.injEq] at h
        rw [← h.1] at h0'
        exact h0'
      · rw [if_neg h1] at h
        simp only [List.mem_cons] at h
        rcases h with h | h | h
        · rw [ReadEvent.synth.injEq] at h
          rw [← h.1] at h0'
          exact h0'
        · cases h
        · exact ih (i0 + 1) i txt v h

theorem play_mem_flag (flag : Nat → Bool) (chs : List Str) :
    ∀ i0 i, ReadEvent.play i ∈ runRead flag chs i0 →
      flag (4 * i + 1) = true := by
  induction chs with
  | nil => intro i0 i h; simp [runRead] at h
  | cons ch rest ih =>
    intro i0 i h
    rw [runRead] at h
    by_cases h0 : flag (4 * i0) = false
    · rw [if_pos h0] at h
      simp at h
    · rw [if_neg h0] at h
      by_cases h1 : flag (4 * i0 + 1) = false
      · rw [if_pos h1] at h
        simp at h
      · have h1' : flag (4 * i0 + 1) = true := by
          revert h1; cases flag (4 * i0 + 1) <;> simp
        rw [if_neg h1] at h
        simp only [List.mem_cons] at h
        rcases h with h | h | h
        · cases h
        · rw [ReadEvent.play.injEq] at h
          rw [← h] at h1'
          exact h1'
        · exact ih (i0 + 1) i h

/-! ## The verified properties -/

/-- C1: for every successful chapter-generation call (`generateNextPartOfStory`
invoked with a non-empty blueprint, no generation already in progress, and a
successful `writeNextChapter` round trip) the chapter counter after the call
equals the counter before the call plus one; moreover no outcome of the call
ever decreases the counter, so within a single story lifecycle it increases
monotonically. -/
theorem chapterCounter_increments :
    (∀ a s, a.isAutoGenerating = false → a.blueprint ≠ [] →
      (generateNextPartOfStory a (some s)).currentChapter = a.currentChapter + 1) ∧
    (∀ a r, a.currentChapter ≤ (generateNextPartOfStory a r).currentChapter) := by
  constructor
  · intro a s hag hbp
    simp [generateNextPartOfStory, hag, hbp]
  · intro a r
    unfold generateNextPartOfStory
    split
    · exact Nat.le_refl _
    · cases r <;> simp

theorem chapterCounter_increments_witness :
    sampleApp.isAutoGenerating = false ∧ sampleApp.blueprint ≠ [] ∧
    (generateNextPartOfStory sampleApp (some ['n'])).currentChapter =
      sampleApp.currentChapter + 1 :=
  ⟨rfl, by decide, chapterCounter_increments.1 sampleApp ['n'] rfl (by decide)⟩

/-- C2: a successful chapter generation sets the accumulated story text to the
old text followed by `"\n\n"` and the new chapter text (so the old text is a
prefix of the new text), any outcome of a generation call only ever appends,
and none of the other handlers (save blueprint, stop, stop audio, narration,
guidance update, error dismissal, blueprint editing) shortens or rewrites the
accumulated story text. -/
theorem storyText_appendOnly :
    (∀ a s, a.isAutoGenerating = false → a.blueprint ≠ [] →
      (generateNextPartOfStory a (some s)).paragraph = a.paragraph ++ nl2 ++ s) ∧
    (∀ a r, ∃ t, (generateNextPartOfStory a r).paragraph = a.paragraph ++ t) ∧
    (∀ a, (handleSaveBlueprint a).paragraph = a.paragraph) ∧
    (∀ a, (handleStop a).paragraph = a.paragraph) ∧
    (∀ a, (stopAudio a).paragraph = a.paragraph) ∧
    (∀ a f, (handleReadFullStory a f).paragraph = a.paragraph) ∧
    (∀ a g, (setCurrentGuidance a g).paragraph = a.paragraph) ∧
    (∀ a, (dismissError a).paragraph = a.paragraph) ∧
    (∀ a, (startEditBlueprint a).paragraph = a.paragraph) ∧
    (∀ a s, (setEditableBlueprint a s).paragraph = a.paragraph) ∧
    (∀ a, (syncEditableBlueprint a).paragraph = a.paragraph) := by
  refine ⟨?_, ?_, ?_, ?_, ?_, ?_, ?_, ?_, ?_, ?_, ?_⟩
  · intro a s hag hbp
    simp [generateNextPartOfStory, hag, hbp]
  · intro a r
    unfold generateNextPartOfStory
    split
    · exact ⟨[], by simp⟩
    · cases r with
      | some s => exact ⟨nl2 ++ s, by simp⟩
      | none => exact ⟨[], by simp⟩
  · intro a; simp [handleSaveBlueprint]
  · intro a; simp [handleStop]
  · intro a; simp [stopAudio]
  · intro a f
    simp only [handleReadFullStory]
    split_ifs <;> simp [stopAudio]
  · intro a g; simp [setCurrentGuidance]
  · intro a; simp [dismissError]
  · intro a; simp [startEditBlueprint]
  · intro a s; simp [setEditableBlueprint]
  · intro a; simp [syncEditableBlueprint]

theorem storyText_appendOnly_witness :
    sampleApp.isAutoGenerating = false ∧ sampleApp.blueprint ≠ [] ∧
    (generateNextPartOfStory sampleApp (some ['n'])).paragraph =
      sampleApp.paragraph ++ nl2 ++ ['n'] :=
  ⟨rfl, by decide, storyText_appendOnly.1 sampleApp ['n'] rfl (by decide)⟩

/-- C3: each of the three remote-call failures (chapter continuation, image
analysis, narration) is caught at its call site and surfaced only by writing
the corresponding fixed message into the error slot; the accumulated story
text, the blueprint, the chapter counter and the analysis are left unchanged
by the failing call, which makes a single attempt and no retry. -/
theorem failures_setErrorOnly :
    (∀ a, (generateNextPartOfStory a none).paragraph = a.paragraph ∧
          (generateNextPartOfStory a none).blueprint = a.blueprint ∧
          (generateNextPartOfStory a none).currentChapter = a.currentChapter ∧
          (generateNextPartOfStory a none).analysis = a.analysis ∧
          (a.isAutoGenerating = false → a.blueprint ≠ [] →
            (generateNextPartOfStory a none).error = some errGenerateMsg)) ∧
    (∀ a, (handleImageUploadFinish a none).paragraph = a.paragraph ∧
          (handleImageUploadFinish a none).blueprint = a.blueprint ∧
          (handleImageUploadFinish a none).currentChapter = a.currentChapter ∧
          (handleImageUploadFinish a none).analysis = a.analysis ∧
          (handleImageUploadFinish a none).error = some errUploadMsg) ∧
    (∀ a, (handleReadFullStory a true).paragraph = a.paragraph ∧
          (handleReadFullStory a true).blueprint = a.blueprint ∧
          (handleReadFullStory a true).currentChapter = a.currentChapter ∧
          (handleReadFullStory a true).analysis = a.analysis ∧
          (a.isPlaying = false → a.paragraph ≠ [] →
            (handleReadFullStory a true).error = some errNarrateMsg)) := by
  refine ⟨?_, ?_, ?_⟩
  · intro a
    refine ⟨?_, ?_, ?_, ?_, ?_⟩
    · unfold generateNextPartOfStory; split <;> simp
    · unfold generateNextPartOfStory; split <;> simp
    · unfold generateNextPartOfStory; split <;> simp
    · unfold generateNextPartOfStory; split <;> simp
    · intro hag hbp; simp [generateNextPartOfStory, hag, hbp]
  · intro a
    refine ⟨?_, ?_, ?_, ?_, ?_⟩ <;> simp [handleImageUploadFinish]
  · intro a
    refine ⟨?_, ?_, ?_, ?_, ?_⟩
    · simp only [handleReadFullStory]; split_ifs <;> simp [stopAudio]
    · simp only [handleReadFullStory]; split_ifs <;> simp [stopAudio]
    · simp only [handleReadFullStory]; split_ifs <;> simp [stopAudio]
    · simp only [handleReadFullStory]; split_ifs <;> simp [stopAudio]
    · intro hp hpar; simp [handleReadFullStory, hp, hpar]

theorem failures_setErrorOnly_witness :
    sampleApp.isAutoGenerating = false ∧ sampleApp.blueprint ≠ [] ∧
    (generateNextPartOfStory sampleApp none).error = some errGenerateMsg ∧
    sampleApp.isPlaying = false ∧ sampleApp.paragraph ≠ [] ∧
    (handleReadFullStory sampleApp true).error = some errNarrateMsg :=
  ⟨rfl, by decide, (failures_setErrorOnly.1 sampleApp).2.2.2.2 rfl (by decide),
   rfl, by decide, (failures_setErrorOnly.2.2 sampleApp).2.2.2.2 rfl (by decide)⟩

/-- C4: every new image upload clears the story state before generation
starts: the analysis, blueprint and accumulated story text become empty, the
chapter counter resets to 1, the error slot and the pending guidance are
cleared, audio playback state is stopped, and the new image replaces the old
one (with the loading flag raised). -/
theorem imageUpload_clearsState (a : App) (b64 : Str) :
    (handleImageUploadStart a b64).analysis = [] ∧
    (handleImageUploadStart a b64).blueprint = [] ∧
    (handleImageUploadStart a b64).paragraph = [] ∧
    (handleImageUploadStart a b64).currentChapter = 1 ∧
    (handleImageUploadStart a b64).error = none ∧
    (handleImageUploadStart a b64).currentGuidance = [] ∧
    (handleImageUploadStart a b64).isPlaying = false ∧
    (handleImageUploadStart a b64).playingChapterIndex = none ∧
    (handleImageUploadStart a b64).isReading = false ∧
    (handleImageUploadStart a b64).image = some b64 ∧
    (handleImageUploadStart a b64).isLoading = true := by
  simp [handleImageUploadStart, stopAudio]

/-- C8: the chat message list is append-only and ordered: a successful send
appends exactly the user message followed by the assistant reply, a failed
send appends the user message followed by the fixed fallback assistant
message, a whitespace-only input or a send while a reply is pending leaves the
state unchanged, and every outcome of `handleSend` only ever appends to the
list. -/
theorem chatMessages_appendOnly :
    (∀ c r, jsTrim c.input ≠ [] → c.isTyping = false →
      (handleSend c (some r)).messages =
        c.messages ++ [⟨Role.user, c.input⟩, ⟨Role.assistant, r⟩]) ∧
    (∀ c, jsTrim c.input ≠ [] → c.isTyping = false →
      (handleSend c none).messages =
        c.messages ++ [⟨Role.user, c.input⟩, ⟨Role.assistant, chatFailMsg⟩]) ∧
    (∀ c r, jsTrim c.input = [] → handleSend c r = c) ∧
    (∀ c r, c.isTyping = true → handleSend c r = c) ∧
    (∀ c r, ∃ t, (handleSend c r).messages = c.messages ++ t) := by
  refine ⟨?_, ?_, ?_, ?_, ?_⟩
  · intro c r hin hty
    simp [handleSend, hin, hty]
  · intro c hin hty
    simp [handleSend, hin, hty]
  · intro c r hin
    simp [handleSend, hin]
  · intro c r hty
    simp [handleSend, hty]
  · intro c r
    unfold handleSend
    split
    · exact ⟨[], by simp⟩
    · cases r with
      | some s => exact ⟨[⟨Role.user, c.input⟩, ⟨Role.assistant, s⟩], rfl⟩
      | none => exact ⟨[⟨Role.user, c.input⟩, ⟨Role.assistant, chatFailMsg⟩], rfl⟩

theorem chatMessages_appendOnly_witness :
    jsTrim sampleChat.input ≠ [] ∧ sampleChat.isTyping = false ∧
    (handleSend sampleChat (some ['o', 'k'])).messages =
      sampleChat.messages ++ [⟨Role.user, sampleChat.input⟩, ⟨Role.assistant, ['o', 'k']⟩] :=
  ⟨by decide, rfl, chatMessages_appendOnly.1 sampleChat ['o', 'k'] (by decide) rfl⟩

/-- C10: the continuation request built by `writeNextChapter` depends on the
accumulated story only through its final 2000 characters: two stories with the
same `slice(-2000)` produce the same request for the same blueprint, chapter
index, image and guidance; and when the story is at most 2000 characters long
the slice is the whole story. -/
theorem writeNextChapter_lastTwoThousand :
    (∀ s1 s2 bp i img ctx, jsSliceNeg 2000 s1 = jsSliceNeg 2000 s2 →
      writeNextChapter s1 bp i img ctx = writeNextChapter s2 bp i img ctx) ∧
    (∀ s : Str, s.length ≤ 2000 → jsSliceNeg 2000 s = s) := by
  constructor
  · intro s1 s2 bp i img ctx h
    simp [writeNextChapter, writeNextChapterPrompt, h]
  · intro s h
    simp [jsSliceNeg, Nat.sub_eq_zero_of_le h]

theorem writeNextChapter_lastTwoThousand_witness :
    jsSliceNeg 2000 longStoryA = jsSliceNeg 2000 longStoryB ∧
    longStoryA ≠ longStoryB ∧
    writeNextChapter longStoryA ['b'] 2 none ['g'] =
      writeNextChapter longStoryB ['b'] 2 none ['g'] := by
  have h : jsSliceNeg 2000 longStoryA = jsSliceNeg 2000 longStoryB := by
    simp only [jsSliceNeg, longStoryA, longStoryB, List.length_cons,
               List.length_replicate, Nat.add_sub_cancel_left, Nat.sub_self,
               List.drop_one, List.tail_cons, List.drop_zero]
  refine ⟨h, ?_, writeNextChapter_lastTwoThousand.1 longStoryA longStoryB ['b'] 2 none ['g'] h⟩
  intro hab
  have hlen := congrArg List.length hab
  simp only [longStoryA, longStoryB, List.length_cons, List.length_replicate] at hlen
  omega

/-- C5: with the stop flag never cleared, a `handleReadFullStory` call on a
non-empty accumulated story narrates exactly the chapters obtained by
splitting the text on `"\n\n"` before a chapter heading, strictly in order:
the trace has two events per chapter, and at every position `k` event `2k` is
the synthesis request for chapter `k` (voice `Kore` at even positions, `Puck`
at odd ones) and event `2k+1` is that chapter's playback — so each chapter's
playback completes before the next chapter's request is issued. -/
theorem narration_inOrder_alternatingVoices (p : Str) (hp : p ≠ []) :
    (readFullStoryTrace false p (fun _ => true)).length =
      2 * (splitChapters p).length ∧
    ∀ k, k < (splitChapters p).length →
      (readFullStoryTrace false p (fun _ => true))[2 * k]? =
        some (ReadEvent.synth k (((splitChapters p).getD k []).take 1500) (voiceFor k)) ∧
      (readFullStoryTrace false p (fun _ => true))[2 * k + 1]? =
        some (ReadEvent.play k) := by
  have htr : readFullStoryTrace false p (fun _ => true) =
      runRead (fun _ => true) (splitChapters p) 0 := by
    simp [readFullStoryTrace, hp]
  rw [htr]
  refine ⟨runRead_always_length _ 0, ?_⟩
  intro k hk
  have := runRead_always_get (splitChapters p) 0 k hk
  simpa using this

theorem narration_inOrder_alternatingVoices_witness :
    samplePara ≠ [] ∧ 1 < (splitChapters samplePara).length ∧
    ((readFullStoryTrace false samplePara (fun _ => true))[2 * 1]? =
      some (ReadEvent.synth 1 (((splitChapters samplePara).getD 1 []).take 1500)
        (voiceFor 1)) ∧
     (readFullStoryTrace false samplePara (fun _ => true))[2 * 1 + 1]? =
      some (ReadEvent.play 1)) :=
  ⟨by decide, by decide,
   (narration_inOrder_alternatingVoices samplePara (by decide)).2 1 (by decide)⟩

/-- C6 (amended): after the stop control clears the reading flag, the playback
loop never issues another speech-synthesis request (the flag is checked at the
top of each iteration) and never starts playback of a chapter whose
post-synthesis check came at or after the clearing; playback of a chapter
whose post-synthesis check already passed can however still start, because no
check happens between audio decoding and `source.start()` (see the
counterexample). -/
theorem narration_stopFlag_amended (flag : Nat → Bool) (hs : isSticky flag)
    (chs : List Str) (t : Nat) (ht : flag t = false) :
    (∀ i txt v, t ≤ 4 * i → ReadEvent.synth i txt v ∉ runRead flag chs 0) ∧
    (∀ i, t ≤ 4 * i + 1 → ReadEvent.play i ∉ runRead flag chs 0) := by
  constructor
  · intro i txt v hti hmem
    have h1 := synth_mem_flag flag chs 0 i txt v hmem
    have h2 := hs t (4 * i) hti ht
    rw [h1] at h2
    exact Bool.noConfusion h2
  · intro i hti hmem
    have h1 := play_mem_flag flag chs 0 i hmem
    have h2 := hs t (4 * i + 1) hti ht
    rw [h1] at h2
    exact Bool.noConfusion h2

theorem narration_stopFlag_witness :
    isSticky (fun _ => false) ∧ (fun _ : Nat => false) 0 = false ∧
    ReadEvent.synth 0 [] "Kore" ∉ runRead (fun _ => false) [['a']] 0 ∧
    ReadEvent.play 0 ∉ runRead (fun _ => false) [['a']] 0 := by
  have hs : isSticky (fun _ => false) := fun m n hmn hm => rfl
  exact ⟨hs, rfl,
    (narration_stopFlag_amended (fun _ => false) hs [['a']] 0 rfl).1 0 [] "Kore"
      (Nat.zero_le _),
    (narration_stopFlag_amended (fun _ => false) hs [['a']] 0 rfl).2 0 (Nat.zero_le _)⟩

/-- C6 (counterexample to the stated form): the stop control can fire during
the decoding of a chapter's audio, i.e. after the post-synthesis flag check
(step `4*i+1`) but before playback starts (step `4*i+2`).  On the sticky
timeline `flagStopDuringDecode`, which is cleared from step 2 on, the flag is
already `false` at the moment chapter 0's playback would start, yet `play 0`
still occurs in the trace: the loop does start playback of an
already-synthesized chapter after the flag is cleared, because the flag is
only checked at the top of the iteration and right after synthesis. -/
theorem narration_stopFlag_counterexample :
    isSticky flagStopDuringDecode ∧
    flagStopDuringDecode 2 = false ∧
    ReadEvent.play 0 ∈ runRead flagStopDuringDecode [['a']] 0 := by
  refine ⟨?_, by decide, by decide⟩
  intro m n hmn hm
  simp only [flagStopDuringDecode, decide_eq_false_iff_not] at hm ⊢
  omega

/-- C9: every speech-synthesis request emitted by the narration loop carries
exactly `chapter.slice(0, 1500)`: at most the first 1500 characters of that
chapter's text, the whole chapter when it is 1500 characters or shorter, with
everything beyond 1500 characters omitted. -/
theorem narration_truncation1500 (ip : Bool) (p : Str) (flag : Nat → Bool)
    (i : Nat) (txt : Str) (v : String)
    (h : ReadEvent.synth i txt v ∈ readFullStoryTrace ip p flag) :
    i < (splitChapters p).length ∧
    txt = ((splitChapters p).getD i []).take 1500 ∧
    txt.length ≤ 1500 ∧
    (((splitChapters p).getD i []).length ≤ 1500 →
      txt = (splitChapters p).getD i []) := by
  have h' : ReadEvent.synth i txt v ∈ runRead flag (splitChapters p) 0 := by
    by_cases hip : ip = true
    · simp [readFullStoryTrace, hip] at h
    · by_cases hp : p = []
      · simp [readFullStoryTrace, hip, hp] at h
      · simpa [readFullStoryTrace, hip, hp] using h
  obtain ⟨k, hik, hk, htxt, hv⟩ := synth_mem_runRead flag (splitChapters p) 0 i txt v h'
  have hki : k = i := by omega
  subst hki
  refine ⟨hk, htxt, ?_, ?_⟩
  · rw [htxt]
    simp only [List.length_take]
    exact Nat.min_le_left _ _
  · intro hlen
    rw [htxt]
    exact take_of_len_le _ _ hlen

theorem narration_truncation1500_witness :
    ReadEvent.synth 0 "ab".toList "Kore" ∈
      readFullStoryTrace false "ab".toList (fun _ => true) ∧
    ("ab".toList : Str) = ((splitChapters "ab".toList).getD 0 []).take 1500 ∧
    ("ab".toList : Str).length ≤ 1500 := by
  have hmem : ReadEvent.synth 0 "ab".toList "Kore" ∈
      readFullStoryTrace false "ab".toList (fun _ => true) := by decide
  have h := narration_truncation1500 false "ab".toList (fun _ => true) 0 "ab".toList
    "Kore" hmem
  exact ⟨hmem, h.2.1, h.2.2.1⟩

/-- C7 (amended): on a response of the shape `a 分析： b 大纲： c 故事： d` where
each marker occurrence shown is the first one the regex engine can match,
`analyzeAndPlan` returns the trimmed `b` as the analysis, the trimmed `c` as
the blueprint and the trimmed `d` as the first chapter.  Each extraction falls
back independently: the analysis falls back to its placeholder when no
`分析：` is followed by a later `大纲：`, the blueprint falls back to its
placeholder when no `大纲：` is followed by a later `故事：`, and the first
chapter falls back to the entire (untrimmed) response exactly in the absence
of `故事：` — a missing marker does not make the other extractions fall back
(see the counterexample). -/
theorem analyzeAndPlan_extraction_amended :
    (∀ a b c d : Str,
      (∀ j, j < a.length →
        listStartsWith mAnalysis ((markedText a b c d).drop j) = false) →
      (∀ j, j < a.length + mAnalysis.length + b.length →
        listStartsWith mBlueprint ((markedText a b c d).drop j) = false) →
      (∀ j, j < a.length + mAnalysis.length + b.length + mBlueprint.length + c.length →
        listStartsWith mStory ((markedText a b c d).drop j) = false) →
      analyzeAndPlan (markedText a b c d) = ⟨jsTrim b, jsTrim c, jsTrim d⟩) ∧
    (∀ t : Str, (¬ ∃ u v w, t = u ++ (mAnalysis ++ (v ++ (mBlueprint ++ w)))) →
      (analyzeAndPlan t).analysis = analysisFallback) ∧
    (∀ t : Str, (¬ ∃ u v w, t = u ++ (mBlueprint ++ (v ++ (mStory ++ w)))) →
      (analyzeAndPlan t).blueprint = blueprintFallback) ∧
    (∀ t : Str, (¬ ∃ u v, t = u ++ (mStory ++ v)) →
      (analyzeAndPlan t).firstChapter = t) := by
  refine ⟨?_, ?_, ?_, ?_⟩
  · intro a b c d h1 h2 h3
    have hdAB : (markedText a b c d).drop (a.length + mAnalysis.length) =
        b ++ (mBlueprint ++ (c ++ (mStory ++ d))) := by
      rw [markedText,
          show a ++ (mAnalysis ++ (b ++ (mBlueprint ++ (c ++ (mStory ++ d))))) =
              (a ++ mAnalysis) ++ (b ++ (mBlueprint ++ (c ++ (mStory ++ d)))) from by
            simp [List.append_assoc],
          ← List.length_append]
      exact drop_len_append _ _
    have hdABO : (markedText a b c d).drop
        (a.length + mAnalysis.length + b.length + mBlueprint.length) =
        c ++ (mStory ++ d) := by
      have hassoc : markedText a b c d =
          (a ++ (mAnalysis ++ (b ++ mBlueprint))) ++ (c ++ (mStory ++ d)) := by
        simp [markedText, List.append_assoc]
      have hlen : (a ++ (mAnalysis ++ (b ++ mBlueprint))).length =
          a.length + mAnalysis.length + b.length + mBlueprint.length := by
        simp only [List.length_append]
        omega
      rw [hassoc, ← hlen]
      exact drop_len_append _ _
    have hAn : matchBetween mAnalysis mBlueprint (markedText a b c d) = some b := by
      apply matchBetween_eq mAnalysis mBlueprint a b (c ++ (mStory ++ d))
      · rfl
      · exact h1
      · intro j hj
        have h := h2 (a.length + mAnalysis.length + j) (by omega)
        rw [dropSplit (a.length + mAnalysis.length) j, hdAB] at h
        exact h
    have hBp : matchBetween mBlueprint mStory (markedText a b c d) = some c := by
      apply matchBetween_eq mBlueprint mStory (a ++ (mAnalysis ++ b)) c d
      · simp [markedText, List.append_assoc]
      · intro j hj
        apply h2 j
        simp only [List.length_append] at hj
        omega
      · intro j hj
        have h := h3 (a.length + mAnalysis.length + b.length + mBlueprint.length + j)
          (by omega)
        rw [dropSplit (a.length + mAnalysis.length + b.length + mBlueprint.length) j,
            hdABO] at h
        exact h
    have hSt : matchAfter mStory (markedText a b c d) = some d := by
      apply matchAfter_eq mStory (a ++ (mAnalysis ++ (b ++ (mBlueprint ++ c)))) d
      · simp [markedText, List.append_assoc]
      · intro j hj
        apply h3 j
        simp only [List.length_append] at hj
        omega
    simp [analyzeAndPlan, hAn, hBp, hSt]
  · intro t h
    simp [analyzeAndPlan, matchBetween_none mAnalysis mBlueprint t h]
  · intro t h
    simp [analyzeAndPlan, matchBetween_none mBlueprint mStory t h]
  · intro t h
    simp [analyzeAndPlan, matchAfter_none mStory t h]

theorem analyzeAndPlan_extraction_witness :
    (∀ j, j < ("x".toList : Str).length →
      listStartsWith mAnalysis
        ((markedText "x".toList " A ".toList "B".toList "C".toList).drop j) = false) ∧
    (∀ j, j < ("x".toList : Str).length + mAnalysis.length + (" A ".toList : Str).length →
      listStartsWith mBlueprint
        ((markedText "x".toList " A ".toList "B".toList "C".toList).drop j) = false) ∧
    (∀ j, j < ("x".toList : Str).length + mAnalysis.length + (" A ".toList : Str).length +
        mBlueprint.length + ("B".toList : Str).length →
      listStartsWith mStory
        ((markedText "x".toList " A ".toList "B".toList "C".toList).drop j) = false) ∧
    analyzeAndPlan (markedText "x".toList " A ".toList "B".toList "C".toList) =
      ⟨"A".toList, "B".toList, "C".toList⟩ ∧
    (analyzeAndPlan "hello".toList).analysis = analysisFallback ∧
    (analyzeAndPlan "hello".toList).blueprint = blueprintFallback ∧
    (analyzeAndPlan "hello".toList).firstChapter = "hello".toList := by
  refine ⟨by decide, by decide, by decide, ?_, ?_, ?_, ?_⟩
  · have h := analyzeAndPlan_extraction_amended.1 "x".toList " A ".toList "B".toList
      "C".toList (by decide) (by decide) (by decide)
    rw [h]
    decide
  · exact analyzeAndPlan_extraction_amended.2.1 "hello".toList
      (no_pair_occurrence mAnalysis mBlueprint "hello".toList (by decide))
  · exact analyzeAndPlan_extraction_amended.2.2.1 "hello".toList
      (no_pair_occurrence mBlueprint mStory "hello".toList (by decide))
  · exact analyzeAndPlan_extraction_amended.2.2.2 "hello".toList
      (no_single_occurrence mStory "hello".toList (by decide))

/-- C7 (counterexample to the stated form): on the response `大纲：B故事：C`
the marker `分析：` is missing, yet the blueprint is the extracted `B` rather
than the placeholder `蓝图已构思。` and the first chapter is the extracted `C`
rather than the entire response text — so a missing marker does not send the
analysis, the blueprint and the first chapter to their fallbacks together, as
the stated sentence would require. -/
theorem analyzeAndPlan_extraction_counterexample :
    (¬ ∃ u v, t0Bad = u ++ (mAnalysis ++ v)) ∧
    (analyzeAndPlan t0Bad).blueprint ≠ blueprintFallback ∧
    (analyzeAndPlan t0Bad).firstChapter ≠ t0Bad :=
  ⟨no_single_occurrence mAnalysis t0Bad (by decide), by decide, by decide⟩

end WritingHelper
